import Mathlib

/-!
Verification of the employee-directory application's listing, validation and
client glue logic.  Frontend functions (form validation, the pagination
control, the auth and employee services) are translated from the JavaScript
sources under `frontend/src`; the Flask backend is not part of the file set,
so the Directory Query Service (`listEmployees`, `createEmployee`) is
modelled from the specification's own description of it.
-/

namespace Directory

/-- The JavaScript whitespace characters relevant to `\s`, `String.prototype.trim`
and friends (ASCII part). -/
def isJsWhitespace (c : Char) : Bool :=
  c == ' ' || c == '\t' || c == '\n' || c == '\r' || c == '\x0b' || c == '\x0c'

/-- JavaScript `String.prototype.trim`: strip whitespace from both ends. -/
def jsTrim (s : String) : String :=
  ⟨((s.data.dropWhile isJsWhitespace).reverse.dropWhile isJsWhitespace).reverse⟩

/-- Lower-casing, as `String.prototype.toLowerCase` on ASCII data. -/
def lowerStr (s : String) : String :=
  ⟨s.data.map Char.toLower⟩

/-- Substring test on character lists: `needle` occurs contiguously in `hay`. -/
def containsSub : List Char → List Char → Bool
  | [], needle => needle.isEmpty
  | c :: rest, needle => needle.isPrefixOf (c :: rest) || containsSub rest needle

/-- JavaScript `hay.includes(sub)`. -/
def strIncludes (hay sub : String) : Bool :=
  containsSub hay.data sub.data

/-- Decision procedure for the form's email regex
`/^[^\s@]+@[^\s@]+\.[^\s@]+$/` (EmployeeForm.js): the string splits as
`a ++ "@" ++ b ++ "." ++ c` with `a`, `b`, `c` non-empty and free of
whitespace and `@`.  Equivalently: no whitespace anywhere, exactly one `@`,
a non-empty part before it, and a `.` at an interior position of the part
after it. -/
def jsEmailTest (s : String) : Bool :=
  let cs := s.data
  cs.all (fun c => !isJsWhitespace c) &&
  cs.count '@' == 1 &&
  (let a := cs.takeWhile (fun c => c != '@')
   let t := (cs.dropWhile (fun c => c != '@')).tail
   !a.isEmpty && ((t.dropLast.drop 1).contains '.'))

/-- Character class `[\d\s\-\(\)]` of the form's phone regex. -/
def phoneCharOk (c : Char) : Bool :=
  c.isDigit || isJsWhitespace c || c == '-' || c == '(' || c == ')'

/-- Decision procedure for the form's phone regex `/^[\+]?[\d\s\-\(\)]+$/`
(EmployeeForm.js): an optional leading `+`, then one or more characters
from the class. -/
def jsPhoneTest (s : String) : Bool :=
  let cs := match s.data with
    | '+' :: rest => rest
    | cs => cs
  !cs.isEmpty && cs.all phoneCharOk

/-- State of the add/edit employee form (EmployeeForm.js `formData`). -/
structure FormData where
  name : String := ""
  email : String := ""
  phone : String := ""
  department : String := ""
  position : String := ""
  location : String := ""
  manager : String := ""
  is_active : Bool := true
  hire_date : String := ""
deriving DecidableEq

/-- EmployeeForm.js `validateForm`: pushes one message per violated rule
(name required; email required, else well-formed; department required;
phone, when present, well-formed) and returns the accumulated list. -/
def validateForm (fd : FormData) : List String :=
  (if jsTrim fd.name = "" then ["Name is required"] else []) ++
  (if jsTrim fd.email = "" then ["Email is required"]
   else if !jsEmailTest fd.email then ["Please enter a valid email address"] else []) ++
  (if jsTrim fd.department = "" then ["Department is required"] else []) ++
  (if fd.phone != "" && !jsPhoneTest fd.phone then ["Please enter a valid phone number"] else [])

/-- The name rule of `validateForm` is violated. -/
def nameBad (fd : FormData) : Prop := jsTrim fd.name = ""

/-- The email rule of `validateForm` (non-blank and matching the address
pattern) is violated. -/
def emailBad (fd : FormData) : Prop :=
  jsTrim fd.email = "" ∨ jsEmailTest fd.email = false

/-- The department rule of `validateForm` is violated. -/
def departmentBad (fd : FormData) : Prop := jsTrim fd.department = ""

/-- The phone rule of `validateForm` (pattern checked only when a phone is
present) is violated. -/
def phoneBad (fd : FormData) : Prop :=
  fd.phone ≠ "" ∧ jsPhoneTest fd.phone = false

instance (fd : FormData) : Decidable (nameBad fd) := by unfold nameBad; infer_instance
instance (fd : FormData) : Decidable (emailBad fd) := by unfold emailBad; infer_instance
instance (fd : FormData) : Decidable (departmentBad fd) := by unfold departmentBad; infer_instance
instance (fd : FormData) : Decidable (phoneBad fd) := by unfold phoneBad; infer_instance

/-- How many of the four validation rules the form data violates. -/
def numViolated (fd : FormData) : Nat :=
  (if nameBad fd then 1 else 0) + (if emailBad fd then 1 else 0) +
  (if departmentBad fd then 1 else 0) + (if phoneBad fd then 1 else 0)

theorem validateForm_mem_name (fd : FormData) :
    "Name is required" ∈ validateForm fd ↔ nameBad fd := by
  unfold validateForm nameBad
  by_cases h1 : jsTrim fd.name = "" <;>
    by_cases h2 : jsTrim fd.email = "" <;>
      by_cases h3 : jsEmailTest fd.email <;>
        by_cases h4 : jsTrim fd.department = "" <;>
          by_cases h5 : (fd.phone != "" && !jsPhoneTest fd.phone) = true <;>
            simp_all

theorem validateForm_mem_email (fd : FormData) :
    ("Email is required" ∈ validateForm fd ∨
      "Please enter a valid email address" ∈ validateForm fd) ↔ emailBad fd := by
  unfold validateForm emailBad
  by_cases h1 : jsTrim fd.name = "" <;>
    by_cases h2 : jsTrim fd.email = "" <;>
      by_cases h3 : jsEmailTest fd.email <;>
        by_cases h4 : jsTrim fd.department = "" <;>
          by_cases h5 : (fd.phone != "" && !jsPhoneTest fd.phone) = true <;>
            simp_all

theorem validateForm_mem_department (fd : FormData) :
    "Department is required" ∈ validateForm fd ↔ departmentBad fd := by
  unfold validateForm departmentBad
  by_cases h1 : jsTrim fd.name = "" <;>
    by_cases h2 : jsTrim fd.email = "" <;>
      by_cases h3 : jsEmailTest fd.email <;>
        by_cases h4 : jsTrim fd.department = "" <;>
          by_cases h5 : (fd.phone != "" && !jsPhoneTest fd.phone) = true <;>
            simp_all

theorem validateForm_mem_phone (fd : FormData) :
    "Please enter a valid phone number" ∈ validateForm fd ↔ phoneBad fd := by
  unfold validateForm phoneBad
  by_cases h1 : jsTrim fd.name = "" <;>
    by_cases h2 : jsTrim fd.email = "" <;>
      by_cases h3 : jsEmailTest fd.email <;>
        by_cases h4 : jsTrim fd.department = "" <;>
          by_cases h5 : (fd.phone != "" && !jsPhoneTest fd.phone) = true <;>
            simp_all [bne_iff_ne]

theorem validateForm_length (fd : FormData) :
    (validateForm fd).length = numViolated fd := by
  unfold validateForm numViolated nameBad emailBad departmentBad phoneBad
  by_cases h1 : jsTrim fd.name = "" <;>
    by_cases h2 : jsTrim fd.email = "" <;>
      by_cases h3 : jsEmailTest fd.email <;>
        by_cases h4 : jsTrim fd.department = "" <;>
          by_cases h5 : fd.phone = "" <;>
            by_cases h6 : jsPhoneTest fd.phone <;>
              simp_all [bne_iff_ne]

/-- Modelled from the spec: the Employee record of the data model (§3) —
the Flask backend holding it is not among the repository files provided.
Timestamps are omitted; optional fields are `Option`s. -/
structure Employee where
  id : Nat
  name : String
  email : String
  phone : Option String := none
  department : String
  position : Option String := none
  location : Option String := none
  manager : Option String := none
  is_active : Bool := true
deriving DecidableEq

/-- Modelled from the spec: the Filter part of a Filter/Page Request (§3);
an absent field means the filter is not supplied. -/
structure EmployeeFilter where
  search : Option String := none
  department : Option String := none
  location : Option String := none
  isActive : Option Bool := none
deriving DecidableEq

/-- Modelled from the spec: the "search" filter matches when the text occurs
case-insensitively in the name OR email OR position (§4.1). -/
def searchMatches (text : String) (e : Employee) : Bool :=
  strIncludes (lowerStr e.name) (lowerStr text) ||
  strIncludes (lowerStr e.email) (lowerStr text) ||
  strIncludes (lowerStr (e.position.getD "")) (lowerStr text)

/-- Modelled from the spec: conjunctive filter application (§4.1) — every
supplied filter must be satisfied; department and location are exact
matches, `is_active` compares the flag. -/
def matchesFilter (f : EmployeeFilter) (e : Employee) : Bool :=
  (match f.search with | none => true | some s => searchMatches s e) &&
  (match f.department with | none => true | some d => e.department == d) &&
  (match f.location with | none => true | some l => e.location.getD "" == l) &&
  (match f.isActive with | none => true | some b => e.is_active == b)

/-- Modelled from the spec: the result order — name ascending, then id
ascending as tie-break (§4.1). -/
def empLe (a b : Employee) : Prop :=
  a.name < b.name ∨ (a.name = b.name ∧ a.id ≤ b.id)

instance : DecidableRel empLe := fun a b => by unfold empLe; infer_instance

instance : IsTotal Employee empLe where
  total a b := by
    unfold empLe
    rcases lt_trichotomy a.name b.name with h | h | h
    · exact Or.inl (Or.inl h)
    · rcases Nat.le_total a.id b.id with h' | h'
      · exact Or.inl (Or.inr ⟨h, h'⟩)
      · exact Or.inr (Or.inr ⟨h.symm, h'⟩)
    · exact Or.inr (Or.inl h)

instance : IsTrans Employee empLe where
  trans a b c hab hbc := by
    unfold empLe at *
    rcases hab with h1 | ⟨h1, h1'⟩ <;> rcases hbc with h2 | ⟨h2, h2'⟩
    · exact Or.inl (lt_trans h1 h2)
    · exact Or.inl (h2 ▸ h1)
    · exact Or.inl (h1 ▸ h2)
    · exact Or.inr ⟨h1.trans h2, h1'.trans h2'⟩

/-- Modelled from the spec: error taxonomy of the Directory Query Service
(§7). -/
inductive ApiError where
  | invalidArgument
  | validation (messages : List String)
  | conflict
  | notFound
deriving DecidableEq

/-- Modelled from the spec: the maximum page size the service accepts (§3
fixes "a sane maximum (e.g., ≤100)"; §9 picks a capped page size). -/
def MAX_PAGE_SIZE : Nat := 100

/-- Modelled from the spec: pageSize is clamped to `[1, MAX_PAGE_SIZE]`
(§4.1). -/
def clampPageSize (n : Nat) : Nat := max 1 (min n MAX_PAGE_SIZE)

/-- Modelled from the spec: a Page Result (§3) — the slice of records, the
echoed page and per-page values, the total match count and the page
count. -/
structure PageResult where
  employees : List Employee
  page : Nat
  perPage : Nat
  total : Nat
  pages : Nat
deriving DecidableEq

/-- Modelled from the spec: `listEmployees(filter, page, pageSize)` (§4.1) —
page ≥ 1 or `InvalidArgument`; pageSize clamped; conjunctive filtering;
order by name then id; `pages = ceil(total / pageSize)` computed as
`(total + sz - 1) / sz`. -/
def listEmployees (ds : List Employee) (f : EmployeeFilter)
    (page pageSize : Nat) : Except ApiError PageResult :=
  if page < 1 then .error .invalidArgument
  else
    let sz := clampPageSize pageSize
    let matched := ds.filter (matchesFilter f)
    let sorted := List.insertionSort empLe matched
    .ok { employees := (sorted.drop ((page - 1) * sz)).take sz
          page := page
          perPage := sz
          total := matched.length
          pages := (matched.length + sz - 1) / sz }

/-- The records of one returned page ([] for a rejected request). -/
def pageRecords (ds : List Employee) (f : EmployeeFilter)
    (pageSize page : Nat) : List Employee :=
  match listEmployees ds f page pageSize with
  | .ok r => r.employees
  | .error _ => []

/-- The page count `listEmployees` reports for this dataset and filter. -/
def numPages (ds : List Employee) (f : EmployeeFilter) (pageSize : Nat) : Nat :=
  ((ds.filter (matchesFilter f)).length + clampPageSize pageSize - 1) / clampPageSize pageSize

/-- All pages of a listing, page 1 through `numPages`, concatenated. -/
def allPages (ds : List Employee) (f : EmployeeFilter) (pageSize : Nat) : List Employee :=
  ((List.range (numPages ds f pageSize)).map (fun i => pageRecords ds f pageSize (i + 1))).flatten

theorem clampPageSize_pos (n : Nat) : 0 < clampPageSize n :=
  Nat.le_max_left 1 _

theorem clampPageSize_eq (n : Nat) (h1 : 1 ≤ n) (h2 : n ≤ MAX_PAGE_SIZE) :
    clampPageSize n = n := by
  unfold clampPageSize MAX_PAGE_SIZE at *
  omega

theorem chunksFlatten {α : Type} (sz k : Nat) (l : List α) :
    ((List.range k).map (fun i => (l.drop (i * sz)).take sz)).flatten = l.take (k * sz) := by
  induction k with
  | zero => simp
  | succ k ih =>
    rw [List.range_succ, List.map_append, List.flatten_append, ih]
    simp only [List.map_cons, List.map_nil, List.flatten_cons, List.flatten_nil,
      List.append_nil]
    rw [← List.take_add]
    congr 1
    ring

theorem ceil_mul_ge (len sz : Nat) (hsz : 0 < sz) :
    len ≤ (len + sz - 1) / sz * sz := by
  rcases Nat.eq_zero_or_pos len with h | h
  · simp [h]
  · have he : len + sz - 1 = (len - 1) + sz := by omega
    rw [he, Nat.add_div_right _ hsz]
    have h1 := Nat.div_add_mod (len - 1) sz
    have h2 := Nat.mod_lt (len - 1) hsz
    have key : ∀ m : Nat, m + (len - 1) % sz = len - 1 → len ≤ m + sz := by
      intro m hm
      omega
    have h3 : ((len - 1) / sz + 1) * sz = sz * ((len - 1) / sz) + sz := by ring
    rw [h3]
    exact key (sz * ((len - 1) / sz)) h1

theorem ceil_least (len sz m : Nat) (hsz : 0 < sz) (hm : len ≤ m * sz) :
    (len + sz - 1) / sz ≤ m := by
  rcases Nat.eq_zero_or_pos len with h | h
  · subst h
    have : sz - 1 < sz := by omega
    simp [Nat.div_eq_of_lt this]
  · have he : len + sz - 1 = (len - 1) + sz := by omega
    rw [he, Nat.add_div_right _ hsz]
    have h5 : len - 1 < m * sz := lt_of_lt_of_le (Nat.sub_lt h Nat.one_pos) hm
    exact Nat.succ_le_of_lt ((Nat.div_lt_iff_lt_mul hsz).mpr h5)

theorem pageRecords_succ (ds : List Employee) (f : EmployeeFilter) (sz i : Nat) :
    pageRecords ds f sz (i + 1)
      = ((List.insertionSort empLe (ds.filter (matchesFilter f))).drop
          (i * clampPageSize sz)).take (clampPageSize sz) := by
  unfold pageRecords listEmployees
  simp

theorem allPages_eq_sorted (ds : List Employee) (f : EmployeeFilter) (sz : Nat) :
    allPages ds f sz = List.insertionSort empLe (ds.filter (matchesFilter f)) := by
  have hsz := clampPageSize_pos sz
  unfold allPages
  have hmap : (List.range (numPages ds f sz)).map (fun i => pageRecords ds f sz (i + 1))
      = (List.range (numPages ds f sz)).map
          (fun i => ((List.insertionSort empLe (ds.filter (matchesFilter f))).drop
            (i * clampPageSize sz)).take (clampPageSize sz)) := by
    simp only [pageRecords_succ]
  rw [hmap, chunksFlatten]
  apply List.take_of_length_le
  have hlen : (List.insertionSort empLe (ds.filter (matchesFilter f))).length
      = (ds.filter (matchesFilter f)).length :=
    (List.perm_insertionSort empLe _).length_eq
  rw [hlen]
  unfold numPages
  exact ceil_mul_ge _ _ hsz

theorem containsSub_iff (hay needle : List Char) :
    containsSub hay needle = true ↔ needle <:+: hay := by
  induction hay with
  | nil =>
    simp [containsSub, List.isEmpty_iff, List.infix_nil]
  | cons c rest ih =>
    simp [containsSub, List.infix_cons_iff, ih, List.isPrefixOf_iff_prefix]

theorem strIncludes_iff (hay sub : String) :
    strIncludes hay sub = true ↔ sub.data <:+: hay.data :=
  containsSub_iff hay.data sub.data

theorem matchesFilter_iff (f : EmployeeFilter) (e : Employee) :
    matchesFilter f e = true ↔
      ((∀ s, f.search = some s →
          ((lowerStr s).data <:+: (lowerStr e.name).data ∨
           (lowerStr s).data <:+: (lowerStr e.email).data ∨
           (lowerStr s).data <:+: (lowerStr (e.position.getD "")).data)) ∧
       (∀ d, f.department = some d → e.department = d) ∧
       (∀ l, f.location = some l → e.location.getD "" = l) ∧
       (∀ b, f.isActive = some b → e.is_active = b)) := by
  unfold matchesFilter searchMatches
  rcases f with ⟨os, od, ol, ob⟩
  cases os <;> cases od <;> cases ol <;> cases ob <;>
    simp [strIncludes_iff, and_assoc, or_assoc]

/-- C1: a record of the dataset appears on some returned page of
`listEmployees` iff it satisfies every supplied filter — AND semantics
across search, department, location and is_active, where the search filter
is satisfied iff the search text occurs case-insensitively as a substring
of the record's name OR email OR position. -/
theorem listEmployees_filter_conjunctive (ds : List Employee) (f : EmployeeFilter)
    (e : Employee) (sz : Nat) (he : e ∈ ds) :
    (∃ p, 1 ≤ p ∧ e ∈ pageRecords ds f sz p) ↔
      ((∀ s, f.search = some s →
          ((lowerStr s).data <:+: (lowerStr e.name).data ∨
           (lowerStr s).data <:+: (lowerStr e.email).data ∨
           (lowerStr s).data <:+: (lowerStr (e.position.getD "")).data)) ∧
       (∀ d, f.department = some d → e.department = d) ∧
       (∀ l, f.location = some l → e.location.getD "" = l) ∧
       (∀ b, f.isActive = some b → e.is_active = b)) := by
  constructor
  · rintro ⟨p, hp, hmem⟩
    obtain ⟨q, rfl⟩ : ∃ q, p = q + 1 := ⟨p - 1, by omega⟩
    rw [pageRecords_succ] at hmem
    have h1 : e ∈ List.insertionSort empLe (ds.filter (matchesFilter f)) :=
      ((List.take_sublist _ _).trans (List.drop_sublist _ _)).subset hmem
    have h2 : e ∈ ds.filter (matchesFilter f) :=
      (List.perm_insertionSort empLe _).mem_iff.mp h1
    exact (matchesFilter_iff f e).mp (List.mem_filter.mp h2).2
  · intro hcond
    have hm : e ∈ ds.filter (matchesFilter f) :=
      List.mem_filter.mpr ⟨he, (matchesFilter_iff f e).mpr hcond⟩
    have h1 : e ∈ allPages ds f sz := by
      rw [allPages_eq_sorted]
      exact (List.perm_insertionSort empLe _).mem_iff.mpr hm
    unfold allPages at h1
    rw [List.mem_flatten] at h1
    obtain ⟨l, hl, hel⟩ := h1
    rw [List.mem_map] at hl
    obtain ⟨i, _, rfl⟩ := hl
    exact ⟨i + 1, by omega, hel⟩

/-- Witness for C1 at a concrete dataset: a single matching employee with
the empty filter appears on some page. -/
theorem listEmployees_filter_conjunctive_witness :
    ({ id := 1, name := "Ann", email := "ann@x.co", department := "Eng" } : Employee) ∈
      [({ id := 1, name := "Ann", email := "ann@x.co", department := "Eng" } : Employee)] ∧
    ((∃ p, 1 ≤ p ∧
        ({ id := 1, name := "Ann", email := "ann@x.co", department := "Eng" } : Employee) ∈
          pageRecords [{ id := 1, name := "Ann", email := "ann@x.co", department := "Eng" }] {} 10 p) ↔
      ((∀ s, ({} : EmployeeFilter).search = some s →
          ((lowerStr s).data <:+: (lowerStr "Ann").data ∨
           (lowerStr s).data <:+: (lowerStr "ann@x.co").data ∨
           (lowerStr s).data <:+: (lowerStr ((none : Option String).getD "")).data)) ∧
       (∀ d, ({} : EmployeeFilter).department = some d → "Eng" = d) ∧
       (∀ l, ({} : EmployeeFilter).location = some l → (none : Option String).getD "" = l) ∧
       (∀ b, ({} : EmployeeFilter).isActive = some b → true = b))) :=
  ⟨List.mem_singleton.mpr rfl,
    listEmployees_filter_conjunctive
      [{ id := 1, name := "Ann", email := "ann@x.co", department := "Eng" }] {}
      { id := 1, name := "Ann", email := "ann@x.co", department := "Eng" } 10
      (List.mem_singleton.mpr rfl)⟩

/-- C2: for valid page/pageSize pairs (page ≥ 1, 1 ≤ pageSize ≤
MAX_PAGE_SIZE) the call succeeds, the reported total is the number of
records matching the filter, the reported page count is the least `m` with
`total ≤ m * pageSize` (that is, `ceil(total / pageSize)`), and the page
sizes summed over page numbers 1..pages equal the total. -/
theorem listEmployees_pagination_totals (ds : List Employee) (f : EmployeeFilter)
    (page sz : Nat) (hp : 1 ≤ page) (h1 : 1 ≤ sz) (h2 : sz ≤ MAX_PAGE_SIZE) :
    ∃ r, listEmployees ds f page sz = .ok r ∧
      r.total = (ds.filter (matchesFilter f)).length ∧
      r.total ≤ r.pages * sz ∧
      (∀ m, r.total ≤ m * sz → r.pages ≤ m) ∧
      ((List.range r.pages).map (fun i => (pageRecords ds f sz (i + 1)).length)).sum
        = r.total := by
  have hcl := clampPageSize_eq sz h1 h2
  have hpos : 0 < sz := h1
  have hok : listEmployees ds f page sz = .ok
      { employees := ((List.insertionSort empLe (ds.filter (matchesFilter f))).drop
          ((page - 1) * clampPageSize sz)).take (clampPageSize sz),
        page := page, perPage := clampPageSize sz,
        total := (ds.filter (matchesFilter f)).length,
        pages := ((ds.filter (matchesFilter f)).length + clampPageSize sz - 1) /
          clampPageSize sz } := by
    unfold listEmployees
    rw [if_neg (by omega)]
  refine ⟨_, hok, rfl, ?_, ?_, ?_⟩
  · simp only [hcl]
    exact ceil_mul_ge _ _ hpos
  · intro m hm
    simp only [hcl] at hm ⊢
    exact ceil_least _ _ _ hpos hm
  · have hsum : ((List.range (numPages ds f sz)).map
        (fun i => (pageRecords ds f sz (i + 1)).length)).sum
          = (ds.filter (matchesFilter f)).length := by
      have hflat := congrArg List.length (allPages_eq_sorted ds f sz)
      rw [(List.perm_insertionSort empLe _).length_eq] at hflat
      rw [← hflat]
      unfold allPages
      rw [List.length_flatten, List.map_map]
      rfl
    have hpages : numPages ds f sz
        = ((ds.filter (matchesFilter f)).length + clampPageSize sz - 1) /
            clampPageSize sz := rfl
    rw [← hpages]
    exact hsum

/-- Witness for C2 at a concrete call: one employee, page 1, page size 10. -/
theorem listEmployees_pagination_totals_witness :
    (1 ≤ 1 ∧ 1 ≤ 10 ∧ 10 ≤ MAX_PAGE_SIZE) ∧
    (∃ r, listEmployees [{ id := 1, name := "Ann", email := "ann@x.co", department := "Eng" }]
        {} 1 10 = .ok r ∧
      r.total = (([{ id := 1, name := "Ann", email := "ann@x.co", department := "Eng" }] :
          List Employee).filter (matchesFilter {})).length ∧
      r.total ≤ r.pages * 10 ∧
      (∀ m, r.total ≤ m * 10 → r.pages ≤ m) ∧
      ((List.range r.pages).map
          (fun i => (pageRecords [{ id := 1, name := "Ann", email := "ann@x.co", department := "Eng" }]
            {} 10 (i + 1)).length)).sum = r.total) :=
  ⟨⟨by decide, by decide, by decide⟩,
    listEmployees_pagination_totals
      [{ id := 1, name := "Ann", email := "ann@x.co", department := "Eng" }] {} 1 10
      (by decide) (by decide) (by decide)⟩

/-- C3: every returned page is ordered by name ascending with id ascending
as tie-break; the pages 1..pages concatenate exactly to the sorted match
list, which is a permutation of the records matching the filter — so over
an unchanged dataset pagination is deterministic, with no record skipped or
duplicated across page boundaries. -/
theorem listEmployees_stable_pagination (ds : List Employee) (f : EmployeeFilter)
    (sz : Nat) :
    (∀ p, List.Sorted empLe (pageRecords ds f sz p)) ∧
    allPages ds f sz = List.insertionSort empLe (ds.filter (matchesFilter f)) ∧
    (allPages ds f sz).Perm (ds.filter (matchesFilter f)) ∧
    List.Sorted empLe (allPages ds f sz) := by
  have hsorted := List.sorted_insertionSort empLe (ds.filter (matchesFilter f))
  refine ⟨?_, allPages_eq_sorted ds f sz, ?_, ?_⟩
  · intro p
    match p with
    | 0 =>
      have : pageRecords ds f sz 0 = [] := rfl
      rw [this]
      exact List.sorted_nil
    | q + 1 =>
      rw [pageRecords_succ]
      exact List.Pairwise.sublist
        ((List.take_sublist _ _).trans (List.drop_sublist _ _)) hsorted
  · rw [allPages_eq_sorted]
    exact List.perm_insertionSort empLe _
  · rw [allPages_eq_sorted]
    exact hsorted

/-- Modelled from the spec: the persistent store of employee records and
the next fresh id (§3 Lifecycle; the Flask/PostgreSQL backend is not among
the repository files provided). -/
structure Store where
  employees : List Employee := []
  nextId : Nat := 1
deriving DecidableEq

/-- Modelled from the spec: `createEmployee(data)` (§4.1) — fails with
`ValidationError` listing all violated fields if any are invalid (the rules
of the form guard `validateForm`), else fails with `Conflict` if the email
already exists, else assigns a new id and returns the created record. The
store is returned alongside the outcome; the frontend maps blank optional
fields to null before submitting (EmployeeForm.js `handleSubmit`). -/
def createEmployee (st : Store) (fd : FormData) : Store × Except ApiError Employee :=
  let errs := validateForm fd
  if errs ≠ [] then (st, .error (.validation errs))
  else if st.employees.any (fun e => e.email == fd.email) then (st, .error .conflict)
  else
    let newEmp : Employee :=
      { id := st.nextId, name := fd.name, email := fd.email,
        phone := if fd.phone = "" then none else some fd.phone,
        department := fd.department,
        position := if fd.position = "" then none else some fd.position,
        location := if fd.location = "" then none else some fd.location,
        manager := if fd.manager = "" then none else some fd.manager,
        is_active := fd.is_active }
    ({ employees := st.employees ++ [newEmp], nextId := st.nextId + 1 }, .ok newEmp)

/-- C4: on input violating at least two of the validation rules,
`createEmployee` fails with a `ValidationError` whose message list contains
one entry for every violated rule — name, email (non-blank and
well-formed), department, phone-when-present — not only the first, and
nothing else (its length is the number of violated rules). -/
theorem createEmployee_lists_all_violations (st : Store) (fd : FormData)
    (hv : 2 ≤ numViolated fd) :
    createEmployee st fd = (st, .error (.validation (validateForm fd))) ∧
    ("Name is required" ∈ validateForm fd ↔ nameBad fd) ∧
    (("Email is required" ∈ validateForm fd ∨
       "Please enter a valid email address" ∈ validateForm fd) ↔ emailBad fd) ∧
    ("Department is required" ∈ validateForm fd ↔ departmentBad fd) ∧
    ("Please enter a valid phone number" ∈ validateForm fd ↔ phoneBad fd) ∧
    (validateForm fd).length = numViolated fd := by
  have hlen := validateForm_length fd
  have hne : validateForm fd ≠ [] := by
    intro h
    rw [h] at hlen
    simp at hlen
    omega
  refine ⟨?_, validateForm_mem_name fd, validateForm_mem_email fd,
    validateForm_mem_department fd, validateForm_mem_phone fd, hlen⟩
  unfold createEmployee
  rw [if_pos hne]

/-- Witness for C4: blank name, malformed email and blank department give
three violations, and the call reports the full list. -/
theorem createEmployee_lists_all_violations_witness :
    2 ≤ numViolated { name := "", email := "not-an-email", department := "" } ∧
    createEmployee {} { name := "", email := "not-an-email", department := "" }
      = ({}, .error (.validation
          (validateForm { name := "", email := "not-an-email", department := "" }))) :=
  ⟨by decide,
    (createEmployee_lists_all_violations {}
      { name := "", email := "not-an-email", department := "" } (by decide)).1⟩

/-- C5: on the specific input name "A", email "bad-email", department
"Eng", the form validation and the guarded `createEmployee` report exactly
one violation — the email-format message — and none for name, department
or phone. -/
theorem createEmployee_bad_email_only :
    validateForm { name := "A", email := "bad-email", department := "Eng" }
      = ["Please enter a valid email address"] ∧
    createEmployee {} { name := "A", email := "bad-email", department := "Eng" }
      = ({}, .error (.validation ["Please enter a valid email address"])) := by
  constructor <;> rfl

/-- A stored employee used by the duplicate-email scenarios. -/
def bobEmployee : Employee :=
  { id := 1, name := "Bob", email := "bob@x.co", department := "Eng" }

/-- A store already holding `bobEmployee`. -/
def bobStore : Store := { employees := [bobEmployee], nextId := 2 }

/-- Duplicate-email form data that is otherwise invalid (blank name). -/
def blankNameDupForm : FormData :=
  { name := "", email := "bob@x.co", department := "Eng" }

/-- Duplicate-email form data that passes all validation rules. -/
def validDupForm : FormData :=
  { name := "Bobby", email := "bob@x.co", department := "Eng" }

/-- Counterexample to C6 as stated: a store already holding the email, but
data that is otherwise invalid (blank name), fails with `ValidationError`,
not `Conflict` — validation precedes the duplicate-email check. -/
theorem createEmployee_conflict_counterexample :
    (∃ e ∈ bobStore.employees, e.email = blankNameDupForm.email) ∧
    (createEmployee bobStore blankNameDupForm).2 ≠ Except.error ApiError.conflict := by
  constructor
  · exact ⟨bobEmployee, List.mem_singleton.mpr rfl, rfl⟩
  · have h : createEmployee bobStore blankNameDupForm
        = (bobStore, .error (.validation ["Name is required"])) := rfl
    rw [h]
    simp

/-- C6 amended: for data that passes field validation, `createEmployee`
against a store already containing the email fails with `Conflict` and
returns the store unchanged. -/
theorem createEmployee_duplicate_conflict (st : Store) (fd : FormData)
    (hval : validateForm fd = [])
    (hdup : ∃ e ∈ st.employees, e.email = fd.email) :
    createEmployee st fd = (st, .error .conflict) := by
  unfold createEmployee
  rw [if_neg (by simp [hval])]
  rw [if_pos]
  rw [List.any_eq_true]
  obtain ⟨e, he, heq⟩ := hdup
  exact ⟨e, he, by simp [heq]⟩

/-- Witness for C6's amended claim: valid data duplicating a stored email
is rejected with `Conflict`, store unchanged. -/
theorem createEmployee_duplicate_conflict_witness :
    validateForm validDupForm = [] ∧
    (∃ e ∈ bobStore.employees, e.email = validDupForm.email) ∧
    createEmployee bobStore validDupForm = (bobStore, .error .conflict) :=
  ⟨rfl, ⟨bobEmployee, List.mem_singleton.mpr rfl, rfl⟩,
    createEmployee_duplicate_conflict bobStore validDupForm rfl
      ⟨bobEmployee, List.mem_singleton.mpr rfl, rfl⟩⟩

/-- An entry of the Pagination control's page list: a page number button or
the disabled ellipsis (components/Pagination.js `getPageNumbers`). -/
inductive PageItem where
  | num (n : Nat)
  | dots
deriving DecidableEq

/-- Pagination.js `getPageNumbers`: all pages when there are at most
`maxVisiblePages = 5`; otherwise a window of five pages around the current
one, with first/last page and ellipses added as needed. -/
def getPageNumbers (currentPage totalPages : Nat) : List PageItem :=
  if totalPages ≤ 5 then
    (List.range' 1 totalPages).map PageItem.num
  else
    let startPage := max 1 (currentPage - 2)
    let endPage := min totalPages (startPage + 4)
    (if 1 < startPage then
        [PageItem.num 1] ++ (if 2 < startPage then [PageItem.dots] else [])
      else []) ++
    (List.range' startPage (endPage + 1 - startPage)).map PageItem.num ++
    (if endPage < totalPages then
        (if endPage < totalPages - 1 then [PageItem.dots] else []) ++ [PageItem.num totalPages]
      else [])

/-- Pagination.js `handlePageClick`: fires `onPageChange` only for a
numeric entry different from the current page. -/
def handlePageClick (currentPage : Nat) : PageItem → Option Nat
  | PageItem.dots => none
  | PageItem.num p => if p = currentPage then none else some p

/-- Pagination.js `handlePrevious`: fires only when `currentPage > 1`. -/
def handlePrevious (currentPage : Nat) : Option Nat :=
  if 1 < currentPage then some (currentPage - 1) else none

/-- Pagination.js `handleNext`: fires only when `currentPage < totalPages`. -/
def handleNext (currentPage totalPages : Nat) : Option Nat :=
  if currentPage < totalPages then some (currentPage + 1) else none

/-- Every page number the Pagination control can pass to `onPageChange`:
the Previous and Next buttons plus a click on any rendered page entry. -/
def paginationInvocations (currentPage totalPages : Nat) : List Nat :=
  (handlePrevious currentPage).toList ++
  (handleNext currentPage totalPages).toList ++
  (getPageNumbers currentPage totalPages).filterMap (handlePageClick currentPage)

theorem mem_getPageNumbers_bounds (cp tp n : Nat) (_hcp : 1 ≤ cp) (hle : cp ≤ tp)
    (hmem : PageItem.num n ∈ getPageNumbers cp tp) : 1 ≤ n ∧ n ≤ tp := by
  unfold getPageNumbers at hmem
  by_cases h5 : tp ≤ 5
  · rw [if_pos h5, List.mem_map] at hmem
    obtain ⟨m, hm, heq⟩ := hmem
    cases heq
    rw [List.mem_range'] at hm
    obtain ⟨i, hi, rfl⟩ := hm
    omega
  · rw [if_neg h5] at hmem
    simp only [List.mem_append] at hmem
    have hstart : 1 ≤ max 1 (cp - 2) := Nat.le_max_left 1 _
    have hstart2 : max 1 (cp - 2) ≤ tp := by omega
    have hend : min tp (max 1 (cp - 2) + 4) ≤ tp := Nat.min_le_left _ _
    rcases hmem with (hmem | hmem) | hmem
    · by_cases hs : 1 < max 1 (cp - 2)
      · rw [if_pos hs] at hmem
        simp only [List.mem_append, List.mem_singleton] at hmem
        rcases hmem with hmem | hmem
        · cases hmem
          omega
        · by_cases hs2 : 2 < max 1 (cp - 2) <;> simp [hs2] at hmem
      · rw [if_neg hs] at hmem
        cases hmem
    · rw [List.mem_map] at hmem
      obtain ⟨m, hm, heq⟩ := hmem
      cases heq
      rw [List.mem_range'] at hm
      obtain ⟨i, hi, rfl⟩ := hm
      omega
    · by_cases he : min tp (max 1 (cp - 2) + 4) < tp
      · rw [if_pos he] at hmem
        simp only [List.mem_append, List.mem_singleton] at hmem
        rcases hmem with hmem | hmem
        · by_cases he2 : min tp (max 1 (cp - 2) + 4) < tp - 1 <;> simp [he2] at hmem
        · cases hmem
          omega
      · rw [if_neg he] at hmem
        cases hmem

/-- C7: with `1 ≤ currentPage ≤ totalPages`, every page number the
Pagination control passes to `onPageChange` — via Previous, Next or a page
button — is an integer `p` with `1 ≤ p ≤ totalPages` and `p ≠ currentPage`;
ellipsis entries never fire, Previous is suppressed at page 1 and Next at
the last page. -/
theorem pagination_invocations_valid (cp tp p : Nat) (hcp : 1 ≤ cp) (hle : cp ≤ tp)
    (hp : p ∈ paginationInvocations cp tp) : 1 ≤ p ∧ p ≤ tp ∧ p ≠ cp := by
  unfold paginationInvocations handlePrevious handleNext at hp
  simp only [List.mem_append] at hp
  rcases hp with (hp | hp) | hp
  · by_cases h : 1 < cp <;> simp [h] at hp
    omega
  · by_cases h : cp < tp <;> simp [h] at hp
    omega
  · rw [List.mem_filterMap] at hp
    obtain ⟨item, hitem, hclick⟩ := hp
    cases item with
    | dots => simp [handlePageClick] at hclick
    | num n =>
      unfold handlePageClick at hclick
      by_cases h : n = cp
      · simp [h] at hclick
      · simp only [if_neg h, Option.some.injEq] at hclick
        subst hclick
        have hn := mem_getPageNumbers_bounds cp tp _ hcp hle hitem
        exact ⟨hn.1, hn.2, h⟩

/-- Witness for C7: on page 2 of 3, clicking Previous yields page 1, which
is in range and differs from the current page. -/
theorem pagination_invocations_valid_witness :
    (1 ≤ 2 ∧ 2 ≤ 3 ∧ 1 ∈ paginationInvocations 2 3) ∧ (1 ≤ 1 ∧ 1 ≤ 3 ∧ 1 ≠ 2) :=
  ⟨⟨by decide, by decide, by decide⟩,
    pagination_invocations_valid 2 3 1 (by decide) (by decide) (by decide)⟩

/-- The browser's localStorage slots AuthService uses: the stored token and
the stored user JSON (AuthService.js `tokenKey` / `userKey`). -/
structure BrowserStorage where
  token : Option String
  user : Option String
deriving DecidableEq

namespace AuthService

/-- AuthService.js `logout`: remove both stored items. -/
def logout (_st : BrowserStorage) : BrowserStorage :=
  { token := none, user := none }

/-- AuthService.js `getToken`. -/
def getToken (st : BrowserStorage) : Option String := st.token

/-- AuthService.js `isAuthenticated`: `!!this.getToken()` — false for a
missing token and, by JavaScript falsiness, also for a stored empty
string. -/
def isAuthenticated (st : BrowserStorage) : Bool :=
  match getToken st with
  | none => false
  | some t => t != ""

/-- AuthService.js `verifyToken`, with the network call abstracted by the
server's `response.ok` flag and body: `if (!token)` throws immediately
without touching storage — the guard fires on a missing token and, by
JavaScript falsiness, on a stored empty string; otherwise a non-ok
response calls `logout()` then throws, and an ok response returns the body
and leaves storage untouched. -/
def verifyToken (st : BrowserStorage) (respOk : Bool) (respBody : String) :
    BrowserStorage × Except String String :=
  match getToken st with
  | none => (st, .error "No token found")
  | some t =>
    if t = "" then (st, .error "No token found")
    else if respOk then (st, .ok respBody)
    else (logout st, .error "Token verification failed")

end AuthService

/-- A storage state holding an empty-string token: falsy in JavaScript, so
`verifyToken` throws without cleaning up. -/
def emptyTokenStorage : BrowserStorage := { token := some "", user := some "user" }

/-- Counterexample to C9 as stated: with the empty string stored as token,
`verifyToken` fails (the `if (!token)` guard throws "No token found")
without removing anything, and after the failed call `getToken()` still
returns the empty string, not null. -/
theorem verifyToken_empty_token_counterexample :
    emptyTokenStorage.token = some "" ∧
    (AuthService.verifyToken emptyTokenStorage false "body").2
      = Except.error "No token found" ∧
    (AuthService.verifyToken emptyTokenStorage false "body").1.token = some "" ∧
    (AuthService.verifyToken emptyTokenStorage false "body").1.user = some "user" ∧
    AuthService.getToken (AuthService.verifyToken emptyTokenStorage false "body").1
      ≠ none :=
  ⟨rfl, rfl, rfl, rfl, fun h => Option.noConfusion h⟩

/-- C9 amended: when the stored token is non-empty (truthy) and the verify
response is non-ok, `verifyToken` removes both the stored token and the
stored user before throwing, and `getToken()` then returns null; after any
failed `verifyToken` call `isAuthenticated()` is false; and a successful
call leaves storage unchanged. (An empty-string stored token makes the
call throw "No token found" with storage untouched, so `getToken()` still
returns the empty string there.) -/
theorem verifyToken_cleanup (st : BrowserStorage) (ok : Bool) (body : String) :
    (∀ t, st.token = some t → t ≠ "" → ok = false →
        (AuthService.verifyToken st ok body).1.token = none ∧
        (AuthService.verifyToken st ok body).1.user = none ∧
        ∃ msg, (AuthService.verifyToken st ok body).2 = Except.error msg) ∧
    (∀ t, st.token = some t → t ≠ "" →
        (∃ msg, (AuthService.verifyToken st ok body).2 = Except.error msg) →
        AuthService.getToken (AuthService.verifyToken st ok body).1 = none) ∧
    ((∃ msg, (AuthService.verifyToken st ok body).2 = Except.error msg) →
        AuthService.isAuthenticated (AuthService.verifyToken st ok body).1 = false) ∧
    (∀ t, st.token = some t → t ≠ "" → ok = true →
        (AuthService.verifyToken st ok body).1 = st) := by
  rcases st with ⟨tok, usr⟩
  cases tok with
  | none =>
    cases ok <;>
      simp [AuthService.verifyToken, AuthService.logout, AuthService.getToken,
        AuthService.isAuthenticated]
  | some t =>
    by_cases ht : t = "" <;> cases ok <;>
      simp [AuthService.verifyToken, AuthService.logout, AuthService.getToken,
        AuthService.isAuthenticated, ht]

/-- A JavaScript value as it can appear among the query parameters handed
to EmployeeService.buildURL: undefined, null, a string, a boolean or a
number. -/
inductive JsValue where
  | undef
  | null
  | str (s : String)
  | bool (b : Bool)
  | num (n : Nat)
deriving DecidableEq

/-- JavaScript stringification `String(v)` for the values above, as
`URLSearchParams.append` applies it. -/
def jsToString : JsValue → String
  | .undef => "undefined"
  | .null => "null"
  | .str s => s
  | .bool true => "true"
  | .bool false => "false"
  | .num n => toString n

/-- The guard of EmployeeService.js `buildURL`:
`params[key] !== undefined && params[key] !== null && params[key] !== ''`
(JavaScript strict inequality). -/
def shouldAppend (v : JsValue) : Bool :=
  v != JsValue.undef && v != JsValue.null && v != JsValue.str ""

/-- The query pairs EmployeeService.js `buildURL` appends, in key order. -/
def buildURLQuery (params : List (String × JsValue)) : List (String × String) :=
  params.filterMap (fun kv =>
    if shouldAppend kv.2 then some (kv.1, jsToString kv.2) else none)

/-- EmployeeService.js `buildURL`: base URL, endpoint and the rendered
query string (percent-encoding elided). -/
def buildURL (baseURL endpoint : String) (params : List (String × JsValue)) : String :=
  baseURL ++ endpoint ++
    (match buildURLQuery params with
     | [] => ""
     | q => "?" ++ String.intercalate "&" (q.map (fun kv => kv.1 ++ "=" ++ kv.2)))

theorem keysNodup_mem_eq {α β : Type} [DecidableEq α] {l : List (α × β)}
    (h : (l.map Prod.fst).Nodup) {k : α} {a b : β}
    (ha : (k, a) ∈ l) (hb : (k, b) ∈ l) : a = b := by
  induction l with
  | nil => cases ha
  | cons x xs ih =>
    rw [List.map_cons, List.nodup_cons] at h
    rcases List.mem_cons.mp ha with h1 | h1 <;> rcases List.mem_cons.mp hb with h2 | h2
    · rw [← h1] at h2
      injection h2 with h2a h2b
      exact h2b.symm
    · exfalso
      apply h.1
      rw [← h1]
      exact List.mem_map.mpr ⟨(k, b), h2, rfl⟩
    · exfalso
      apply h.1
      rw [← h2]
      exact List.mem_map.mpr ⟨(k, a), h1, rfl⟩
    · exact ih h.2 h1 h2

theorem shouldAppend_iff (v : JsValue) :
    shouldAppend v = true ↔
      (v ≠ JsValue.undef ∧ v ≠ JsValue.null ∧ v ≠ JsValue.str "") := by
  cases v <;> simp [shouldAppend]

/-- C10: `buildURL` appends a query parameter iff its value is neither
undefined, null nor the empty string; a boolean `false` is appended (so an
unchecked isActive filter reaches the server as `isActive=false`), and an
empty-string parameter's key is omitted from the URL entirely. -/
theorem buildURL_append_iff (params : List (String × JsValue)) :
    (buildURLQuery params
        = params.filterMap (fun kv =>
            if kv.2 ≠ JsValue.undef ∧ kv.2 ≠ JsValue.null ∧ kv.2 ≠ JsValue.str ""
            then some (kv.1, jsToString kv.2) else none)) ∧
    (∀ k b, (k, JsValue.bool b) ∈ params →
        (k, jsToString (JsValue.bool b)) ∈ buildURLQuery params) ∧
    (∀ k, (params.map Prod.fst).Nodup → (k, JsValue.str "") ∈ params →
        k ∉ (buildURLQuery params).map Prod.fst) ∧
    buildURLQuery [("search", JsValue.str ""), ("isActive", JsValue.bool false)]
      = [("isActive", "false")] := by
  refine ⟨?_, ?_, ?_, rfl⟩
  · induction params with
    | nil => rfl
    | cons x xs ih =>
      unfold buildURLQuery at ih ⊢
      rw [List.filterMap_cons, List.filterMap_cons]
      cases hsa : shouldAppend x.2
      · have hprop : ¬(x.2 ≠ JsValue.undef ∧ x.2 ≠ JsValue.null ∧ x.2 ≠ JsValue.str "") := by
          rw [← shouldAppend_iff, hsa]
          simp
        rw [if_neg hprop]
        simpa using ih
      · have hprop : x.2 ≠ JsValue.undef ∧ x.2 ≠ JsValue.null ∧ x.2 ≠ JsValue.str "" :=
          (shouldAppend_iff x.2).mp hsa
        rw [if_pos hprop]
        simpa using ih
  · intro k b hmem
    exact List.mem_filterMap.mpr ⟨(k, JsValue.bool b), hmem, by cases b <;> rfl⟩
  · intro k hnodup hmem hk
    rw [List.mem_map] at hk
    obtain ⟨⟨k2, v2⟩, hq, hfst⟩ := hk
    unfold buildURLQuery at hq
    rw [List.mem_filterMap] at hq
    obtain ⟨⟨k3, v3⟩, hmem3, hif⟩ := hq
    cases hsa : shouldAppend v3 <;> rw [hsa] at hif
    · simp at hif
    · simp only [if_true] at hif
      injection hif with hif1
      injection hif1 with hk3 hv3
      have hk3k : k3 = k := hk3.symm ▸ hfst
      have heq : v3 = JsValue.str "" :=
        keysNodup_mem_eq hnodup (hk3k ▸ hmem3) hmem
      rw [heq] at hsa
      simp [shouldAppend] at hsa

/-- The search/filter state App.js keeps and submits (`searchFilters`). -/
structure SearchFiltersState where
  search : String
  department : String
  location : String
  isActive : Bool
deriving DecidableEq

/-- The pagination state App.js keeps (`pagination`). -/
structure PaginationState where
  page : Nat
  perPage : Nat
  total : Nat
  pages : Nat
deriving DecidableEq

/-- App.js `fetchEmployees` parameter object
`{ ...searchFilters, page, per_page }`, in JavaScript key order. -/
def fetchEmployeesParams (f : SearchFiltersState) (pg : PaginationState) :
    List (String × JsValue) :=
  [("search", JsValue.str f.search), ("department", JsValue.str f.department),
   ("location", JsValue.str f.location), ("isActive", JsValue.bool f.isActive),
   ("page", JsValue.num pg.page), ("per_page", JsValue.num pg.perPage)]

/-- Modelled from the spec: the pagination object of a GET /employees
response, `{ page, per_page, total, pages }` (§6). -/
structure PaginationInfo where
  page : Nat
  per_page : Nat
  total : Nat
  pages : Nat
deriving DecidableEq

/-- Modelled from the spec: a successful GET /employees response,
`{ employees: [...], pagination: {...} }` (§6). -/
structure EmployeesResponse where
  employees : List Employee
  pagination : PaginationInfo
deriving DecidableEq

/-- Modelled from the spec: how the service's page result is serialised as
the GET /employees response body (§6). -/
def toResponse (r : PageResult) : EmployeesResponse :=
  { employees := r.employees,
    pagination :=
      { page := r.page, per_page := r.perPage, total := r.total, pages := r.pages } }

/-- App.js `fetchEmployees` response handling: the employee list becomes
`response.employees`, and of the pagination state only `total` and `pages`
are replaced, from `response.pagination.total` / `response.pagination.pages`. -/
def applyFetchResponse (pg : PaginationState) (resp : EmployeesResponse) :
    List Employee × PaginationState :=
  (resp.employees,
   { page := pg.page, perPage := pg.perPage,
     total := resp.pagination.total, pages := resp.pagination.pages })

/-- C8: the client sends exactly the query parameters search, department,
location, isActive, page and per_page; every accepted GET /employees call
yields a response holding the employees list and a pagination object with
page, per_page, total and pages; and the client reads back exactly
`response.employees`, `response.pagination.total` and
`response.pagination.pages`, keeping its own page and per-page values. -/
theorem fetchEmployees_contract (f : SearchFiltersState) (pg : PaginationState)
    (resp : EmployeesResponse) :
    ((fetchEmployeesParams f pg).map Prod.fst
        = ["search", "department", "location", "isActive", "page", "per_page"]) ∧
    (∀ ds fil p sz, 1 ≤ p → ∃ r, listEmployees ds fil p sz = Except.ok r ∧
        (toResponse r).pagination.page = p ∧
        (toResponse r).pagination.per_page = clampPageSize sz ∧
        (toResponse r).pagination.total = (ds.filter (matchesFilter fil)).length ∧
        (toResponse r).employees = r.employees) ∧
    applyFetchResponse pg resp
      = (resp.employees,
         { page := pg.page, perPage := pg.perPage,
           total := resp.pagination.total, pages := resp.pagination.pages }) := by
  refine ⟨rfl, ?_, rfl⟩
  intro ds fil p sz hp
  have hok : listEmployees ds fil p sz = .ok
      { employees := ((List.insertionSort empLe (ds.filter (matchesFilter fil))).drop
          ((p - 1) * clampPageSize sz)).take (clampPageSize sz),
        page := p, perPage := clampPageSize sz,
        total := (ds.filter (matchesFilter fil)).length,
        pages := ((ds.filter (matchesFilter fil)).length + clampPageSize sz - 1) /
          clampPageSize sz } := by
    unfold listEmployees
    rw [if_neg (by omega)]
  exact ⟨_, hok, rfl, rfl, rfl, rfl⟩

end Directory
